import Mathlib

/-!
Verification development for the CodeSolAI task-orchestration and
tool-execution pipeline.  The definitions below are a shallow embedding of
the Python sources:
  * `src/codesolai/core/task_manager.py`   (task state machine, decomposition)
  * `src/codesolai/core/tool_registry.py`  (registry execution boundary)
  * `src/codesolai/tools/base_tool.py`     (validation / execution wrapper)
  * `src/codesolai/tools/filesystem_tool.py` (path security validation)
  * `src/codesolai/core/enhanced_agent.py` (ACTION/PARAMETERS response parsing)
Python dicts are modelled as insertion-ordered association lists, `json.loads`
by an executable JSON reader, timestamps by a logical clock, and regular
expressions by equivalent deterministic scanners.
-/

namespace CodeSolAI

/-! ## JSON values (the shape `json.loads` produces) -/

/-- A JSON value.  Numbers keep their source lexeme: no claim compares
numeric values, only structure and strings. -/
inductive Json where
  | null : Json
  | bool (b : Bool) : Json
  | num (lexeme : String) : Json
  | str (s : String) : Json
  | arr (elems : List Json) : Json
  | obj (fields : List (String × Json)) : Json
deriving Repr, Inhabited

/-- Lookup in a Python dict modelled as an insertion-ordered association
list (`dictSet` keeps keys unique, so the first binding is the binding). -/
def dictGet {α : Type} (fields : List (String × α)) (k : String) : Option α :=
  match fields with
  | [] => none
  | (k', v) :: rest => if k' = k then some v else dictGet rest k

/-- Python `d[k] = v` on a dict: replace in place if the key exists,
otherwise append (insertion order preserved). -/
def dictSet {α : Type} (fields : List (String × α)) (k : String) (v : α) :
    List (String × α) :=
  match fields with
  | [] => [(k, v)]
  | (k', v') :: rest =>
    if k' = k then (k, v) :: rest else (k', v') :: dictSet rest k v

/-- Python `d.pop(k)`: the removed value (if any) and the remaining dict. -/
def dictPop {α : Type} (fields : List (String × α)) (k : String) :
    Option α × List (String × α) :=
  match fields with
  | [] => (none, [])
  | (k', v) :: rest =>
    if k' = k then (some v, rest)
    else
      let (r, rest') := dictPop rest k
      (r, (k', v) :: rest')

/-- Wraps a string in single quotes (ASCII 39), as Python f-strings like
`f"Tool '{tool_name}' not found"` do. -/
def squote (s : String) : String :=
  String.mk (Char.ofNat 39 :: s.toList ++ [Char.ofNat 39])

/-- Python truthiness of a JSON value (`if not parameters.get('path')`).
A numeric lexeme is falsy when its mantissa has no nonzero digit. -/
def jsonFalsy : Option Json → Bool
  | none => true
  | some Json.null => true
  | some (Json.bool b) => !b
  | some (Json.str s) => s.isEmpty
  | some (Json.arr l) => l.isEmpty
  | some (Json.obj l) => l.isEmpty
  | some (Json.num lex) =>
    let mantissa := lex.toList.takeWhile (fun c => c ≠ 'e' ∧ c ≠ 'E')
    mantissa.all (fun c => ¬ c.isDigit ∨ c = '0')

/-! ## A JSON reader mirroring `json.loads` (strict mode)

Fuel-indexed recursion; the fuel supplied at the top level
(`length + 1`) never runs out because every recursive call consumes at
least one character. -/

/-- JSON whitespace (what `json.loads` skips between tokens). -/
def jsonWs (c : Char) : Bool :=
  c = ' ' ∨ c = '\t' ∨ c = '\n' ∨ c = '\r'

def skipJsonWs (cs : List Char) : List Char :=
  cs.dropWhile jsonWs

def hexVal (c : Char) : Option Nat :=
  if c.isDigit then some (c.toNat - '0'.toNat)
  else if 'a' ≤ c ∧ c ≤ 'f' then some (c.toNat - 'a'.toNat + 10)
  else if 'A' ≤ c ∧ c ≤ 'F' then some (c.toNat - 'A'.toNat + 10)
  else none

/-- Body of a JSON string literal after the opening quote.  Strict mode:
unescaped control characters (< 0x20) are rejected, like `json.loads`. -/
def jsonStringBody (fuel : Nat) (cs : List Char) (acc : List Char) :
    Option (String × List Char) :=
  match fuel, cs with
  | 0, _ => none
  | _, [] => none
  | fuel + 1, c :: rest =>
    if c = '"' then some (String.mk acc.reverse, rest)
    else if c = '\\' then
      match rest with
      | [] => none
      | e :: rest2 =>
        if e = '"' then jsonStringBody fuel rest2 ('"' :: acc)
        else if e = '\\' then jsonStringBody fuel rest2 ('\\' :: acc)
        else if e = '/' then jsonStringBody fuel rest2 ('/' :: acc)
        else if e = 'b' then jsonStringBody fuel rest2 ('\x08' :: acc)
        else if e = 'f' then jsonStringBody fuel rest2 ('\x0c' :: acc)
        else if e = 'n' then jsonStringBody fuel rest2 ('\n' :: acc)
        else if e = 'r' then jsonStringBody fuel rest2 ('\r' :: acc)
        else if e = 't' then jsonStringBody fuel rest2 ('\t' :: acc)
        else if e = 'u' then
          match rest2 with
          | h1 :: h2 :: h3 :: h4 :: rest3 =>
            match hexVal h1, hexVal h2, hexVal h3, hexVal h4 with
            | some a, some b, some c', some d =>
              let n := ((a * 16 + b) * 16 + c') * 16 + d
              if n.isValidChar then
                jsonStringBody fuel rest3 (Char.ofNat n :: acc)
              else jsonStringBody fuel rest3 ('�' :: acc)
            | _, _, _, _ => none
          | _ => none
        else none
    else if c.toNat < 0x20 then none
    else jsonStringBody fuel rest (c :: acc)

/-- Lexes a JSON number per the grammar `-?(0|[1-9][0-9]*)(\.[0-9]+)?([eE][+-]?[0-9]+)?`,
returning the lexeme. -/
def jsonNumberLex (cs : List Char) : Option (String × List Char) :=
  let (sign, cs1) :=
    match cs with
    | '-' :: rest => (['-'], rest)
    | _ => (([] : List Char), cs)
  match cs1 with
  | [] => none
  | d :: _ =>
    if ¬ d.isDigit then none
    else
      let intPart := cs1.takeWhile Char.isDigit
      -- leading-zero rule: "0" alone, or first digit nonzero
      if intPart.length > 1 ∧ intPart.headD '0' = '0' then none
      else
        let cs2 := cs1.drop intPart.length
        let (fracPart, cs3) :=
          match cs2 with
          | '.' :: rest =>
            let ds := rest.takeWhile Char.isDigit
            if ds.isEmpty then (([] : List Char), cs2)
            else ('.' :: ds, rest.drop ds.length)
          | _ => (([] : List Char), cs2)
        if cs2 ≠ cs3 ∨ fracPart.isEmpty then
          let (expPart, cs4) :=
            match cs3 with
            | e :: rest =>
              if e = 'e' ∨ e = 'E' then
                let (sgn, rest2) :=
                  match rest with
                  | s :: r2 => if s = '+' ∨ s = '-' then ([s], r2) else (([] : List Char), rest)
                  | [] => (([] : List Char), rest)
                let ds := rest2.takeWhile Char.isDigit
                if ds.isEmpty then (([] : List Char), cs3)
                else (e :: (sgn ++ ds), rest2.drop ds.length)
              else (([] : List Char), cs3)
            | [] => (([] : List Char), cs3)
          some (String.mk (sign ++ intPart ++ fracPart ++ expPart), cs4)
        else none

mutual

/-- Parses one JSON value starting at `cs` (leading whitespace already
skipped by the caller). -/
def jsonValue (fuel : Nat) (cs : List Char) : Option (Json × List Char) :=
  match fuel with
  | 0 => none
  | fuel + 1 =>
    match cs with
    | [] => none
    | c :: rest =>
      if c = '{' then jsonObjItems fuel (skipJsonWs rest) [] true
      else if c = '[' then jsonArrItems fuel (skipJsonWs rest) [] true
      else if c = '"' then
        match jsonStringBody (rest.length + 1) rest [] with
        | some (s, rest') => some (Json.str s, rest')
        | none => none
      else if cs.take 4 = ['t', 'r', 'u', 'e'] then some (Json.bool true, cs.drop 4)
      else if cs.take 5 = ['f', 'a', 'l', 's', 'e'] then some (Json.bool false, cs.drop 5)
      else if cs.take 4 = ['n', 'u', 'l', 'l'] then some (Json.null, cs.drop 4)
      else
        match jsonNumberLex cs with
        | some (lex, rest') => some (Json.num lex, rest')
        | none => none

/-- Elements of a JSON array after `[` (whitespace skipped).  `first` is
true before any element has been read. -/
def jsonArrItems (fuel : Nat) (cs : List Char) (acc : List Json) (first : Bool) :
    Option (Json × List Char) :=
  match fuel with
  | 0 => none
  | fuel + 1 =>
    match cs with
    | ']' :: rest =>
      if first then some (Json.arr acc.reverse, rest) else none
    | _ =>
      match jsonValue fuel cs with
      | none => none
      | some (v, rest) =>
        match skipJsonWs rest with
        | ',' :: rest2 => jsonArrItems fuel (skipJsonWs rest2) (v :: acc) false
        | ']' :: rest2 => some (Json.arr (v :: acc).reverse, rest2)
        | _ => none

/-- Members of a JSON object after `{` (whitespace skipped).  Duplicate
keys follow dict semantics: the later value wins. -/
def jsonObjItems (fuel : Nat) (cs : List Char) (acc : List (String × Json)) (first : Bool) :
    Option (Json × List Char) :=
  match fuel with
  | 0 => none
  | fuel + 1 =>
    match cs with
    | '}' :: rest =>
      if first then some (Json.obj acc, rest) else none
    | '"' :: rest =>
      match jsonStringBody (rest.length + 1) rest [] with
      | none => none
      | some (k, rest1) =>
        match skipJsonWs rest1 with
        | ':' :: rest2 =>
          match jsonValue fuel (skipJsonWs rest2) with
          | none => none
          | some (v, rest3) =>
            match skipJsonWs rest3 with
            | ',' :: rest4 => jsonObjItems fuel (skipJsonWs rest4) (dictSet acc k v) false
            | '}' :: rest4 => some (Json.obj (dictSet acc k v), rest4)
            | _ => none
        | _ => none
    | _ => none

end

/-- Model of `json.loads`: parse a complete JSON document; trailing data (other than
whitespace) is an error. -/
def jsonLoads (s : String) : Option Json :=
  let cs := skipJsonWs s.toList
  match jsonValue (s.length + 1) cs with
  | some (v, rest) => if (skipJsonWs rest).isEmpty then some v else none
  | none => none

/-! ## Task Manager (`task_manager.py`)

`datetime.now()` is a logical clock (`Nat`), `uuid.uuid4()` a fresh-id
counter, and event callbacks are reported as boolean "fired" outputs (the
Enhanced Agent always registers all four callbacks at construction). -/

/-- The `TaskState` enum. -/
inductive TaskState where
  | notStarted
  | inProgress
  | completed
  | failed
  | cancelled
deriving Repr, DecidableEq

/-- The `Task` dataclass.  `progress` is an exact rational: the code only
ever stores 0.0 and 1.0, both exact in floating point. -/
structure Task where
  id : String
  name : String
  description : String
  state : TaskState := .notStarted
  parentId : Option String := none
  subtasks : List String := []
  createdAt : Nat
  startedAt : Option Nat := none
  completedAt : Option Nat := none
  error : Option String := none
  result : Option Json := none
  progress : ℚ := 0
  metadata : List (String × Json) := []
deriving Repr

/-- Model of `Task.has_subtasks`. -/
def Task.hasSubtasks (t : Task) : Bool :=
  t.subtasks.length > 0

/-- Model of `Task.is_root_task`. -/
def Task.isRootTask (t : Task) : Bool :=
  t.parentId.isNone

/-- The mutable fields of `TaskManager` that the state machine touches. -/
structure ManagerState where
  tasks : List (String × Task) := []
  executionOrder : List String := []
  currentTaskId : Option String := none
  uuidCounter : Nat := 0
deriving Repr

/-- Fresh task id; models the uniqueness of `uuid.uuid4()`. -/
def freshTaskId (n : Nat) : String :=
  "task-" ++ toString n

/-- Model of `TaskManager.create_task`. -/
def createTask (s : ManagerState) (name description : String)
    (parentId : Option String) (metadata : List (String × Json)) (now : Nat) :
    String × ManagerState :=
  let id := freshTaskId s.uuidCounter
  let task : Task := { id, name, description, parentId, metadata, createdAt := now }
  let tasks1 := dictSet s.tasks id task
  -- "Add to parent's subtasks if applicable"
  let tasks2 :=
    match parentId with
    | some p =>
      match dictGet tasks1 p with
      | some parent => dictSet tasks1 p { parent with subtasks := parent.subtasks ++ [id] }
      | none => tasks1
    | none => tasks1
  -- "Add to execution order if it's a root task or leaf task":
  -- `if not parent_id or not task.has_subtasks()` on the freshly built task
  let execOrder :=
    if parentId.isNone || !task.hasSubtasks then s.executionOrder ++ [id]
    else s.executionOrder
  (id, { s with tasks := tasks2, executionOrder := execOrder,
                uuidCounter := s.uuidCounter + 1 })

/-- Model of `TaskManager.get_task`. -/
def getTask (s : ManagerState) (id : String) : Option Task :=
  dictGet s.tasks id

/-- Model of `TaskManager.get_next_task`: first task in execution order still in
`NOT_STARTED`. -/
def getNextTask (s : ManagerState) : Option Task :=
  s.executionOrder.findSome? (fun id =>
    match dictGet s.tasks id with
    | some t => if t.state = .notStarted then some t else none
    | none => none)

/-- Model of `TaskManager.start_task`: returns whether it succeeded, plus the new
state. -/
def startTask (s : ManagerState) (id : String) (now : Nat) :
    Bool × ManagerState :=
  match dictGet s.tasks id with
  | none => (false, s)
  | some t =>
    if t.state ≠ .notStarted then (false, s)
    else
      let t' := { t with state := .inProgress, startedAt := some now }
      (true, { s with tasks := dictSet s.tasks id t', currentTaskId := some id })

/-- Model of `TaskManager._all_tasks_complete`: note FAILED (and IN_PROGRESS,
NOT_STARTED) tasks make this false — only COMPLETED and CANCELLED count. -/
def allTasksComplete (s : ManagerState) : Bool :=
  s.tasks.all (fun p => p.2.state = .completed ∨ p.2.state = .cancelled)

/-- Model of `TaskManager.complete_task`: returns (returned bool, new state,
whether the `on_all_complete` callback fired). -/
def completeTask (s : ManagerState) (id : String) (result : Option Json)
    (now : Nat) : Bool × ManagerState × Bool :=
  match dictGet s.tasks id with
  | none => (false, s, false)
  | some t =>
    let t' := { t with state := .completed, completedAt := some now,
                       result := result, progress := 1 }
    let current := if s.currentTaskId = some id then none else s.currentTaskId
    let s' := { s with tasks := dictSet s.tasks id t', currentTaskId := current }
    (true, s', allTasksComplete s')

/-- Model of `TaskManager.fail_task`. -/
def failTask (s : ManagerState) (id : String) (error : String) (now : Nat) :
    Bool × ManagerState :=
  match dictGet s.tasks id with
  | none => (false, s)
  | some t =>
    let t' := { t with state := .failed, completedAt := some now,
                       error := some error }
    let current := if s.currentTaskId = some id then none else s.currentTaskId
    (true, { s with tasks := dictSet s.tasks id t', currentTaskId := current })

/-! ## Decomposition (`TaskManager.decompose_task`) -/

/-- Splits a character list on a separator character (all parts kept,
including empty ones), structurally recursive so closed terms reduce. -/
def splitOnChar (sep : Char) (cs : List Char) : List (List Char) :=
  match cs with
  | [] => [[]]
  | c :: rest =>
    let parts := splitOnChar sep rest
    if c = sep then [] :: parts
    else
      match parts with
      | p :: ps => (c :: p) :: ps
      | [] => [[c]]

/-- Python `str.lower()` (ASCII case folding). -/
def strLower (s : String) : String :=
  String.mk (s.toList.map Char.toLower)

/-- Substring containment, `needle in hay` on Python strings. -/
def strContainsSub (hay needle : String) : Bool :=
  let h := hay.toList
  let n := needle.toList
  (List.range (h.length + 1)).any (fun i => n.isPrefixOf (h.drop i))

/-- Model of `TaskManager._detect_project_type`. -/
def detectProjectType (request : String) : Option String :=
  let lower := strLower request
  if (["flask", "web app", "web application", "authentication", "login"].any
        (fun k => strContainsSub lower k)) &&
      (strContainsSub lower "flask" || strContainsSub lower "python") then
    some "flask_web_app"
  else none

/-- Model of `re.search(r'\[.*\]', response, re.DOTALL)`: the leftmost-greedy match
runs from the first `[` to the last `]` of the string (if that `]` comes
after the `[`). -/
def extractJsonArray (response : String) : Option String :=
  let cs := response.toList
  match cs.findIdx? (· = '[') with
  | none => none
  | some i =>
    match cs.reverse.findIdx? (· = ']') with
    | none => none
    | some rj =>
      let j := cs.length - 1 - rj
      if i ≤ j then some (String.mk ((cs.drop i).take (j - i + 1))) else none

/-- One entry of `FileCreationHelper.generate_file_creation_tasks`. -/
structure FileTask where
  name : String
  description : String
  filePath : String
  content : String

/-- Model of `TaskManager._create_template_based_tasks`; the file-template table
(`FileCreationHelper`) is passed in as `fileHelper`. -/
def createTemplateBasedTasks (s : ManagerState) (projectType : String)
    (fileHelper : String → List FileTask) (now : Nat) :
    List String × ManagerState :=
  let fileTasks := fileHelper projectType
  let (dirId, s1) := createTask s "Create project directory structure"
    "Set up the basic directory structure and create necessary folders"
    none [("template_based", .bool true), ("project_type", .str projectType)] now
  let (ids, s2) := fileTasks.foldl
    (fun (acc : List String × ManagerState) ft =>
      let (id, s') := createTask acc.2 ft.name ft.description none
        [("template_based", .bool true), ("project_type", .str projectType),
         ("file_path", .str ft.filePath), ("file_content", .str ft.content)] now
      (acc.1 ++ [id], s'))
    ([dirId], s1)
  let (setupId, s3) := createTask s2 "Initialize and test the application"
    "Run initial setup commands and verify the application works correctly"
    none [("template_based", .bool true), ("project_type", .str projectType)] now
  (ids ++ [setupId], s3)

/-- Model of `task_data.get(key, default)` used as a task name: string payloads are
taken as-is; a non-string payload is rendered (the Python code would store
the raw object — a branch no claim exercises). -/
def jsonAsName (v : Option Json) (default : String) : String :=
  match v with
  | some (.str s) => s
  | some other => reprStr other
  | none => default

/-- The `for i, task_data in enumerate(tasks_data)` creation loop.  A
non-dict entry raises `AttributeError` in Python (`.get` missing), which
the surrounding `except` turns into an empty return — tasks created before
the bad entry remain in the manager. -/
def decomposeCreateLoop (s : ManagerState) (items : List Json) (i : Nat)
    (now : Nat) (acc : List String) : Option (List String) × ManagerState :=
  match items with
  | [] => (some acc.reverse, s)
  | item :: rest =>
    match item with
    | .obj fields =>
      let name := jsonAsName (dictGet fields "name") s!"Task {i + 1}"
      let desc := jsonAsName (dictGet fields "description") "No description"
      let (id, s') := createTask s name desc none [("auto_generated", .bool true)] now
      decomposeCreateLoop s' rest (i + 1) now (id :: acc)
    | _ => (none, s)

/-- Model of `TaskManager.decompose_task`.  The provider call is abstracted by
passing the LLM `response` text directly (the call sits between the
api-key check and the JSON extraction and only supplies that text). -/
def decomposeTask (s : ManagerState) (mainRequest : String)
    (apiKey : Option String) (response : String)
    (fileHelper : String → List FileTask) (now : Nat) :
    List String × ManagerState :=
  match detectProjectType mainRequest with
  | some pt => createTemplateBasedTasks s pt fileHelper now
  | none =>
    match apiKey with
    | none => ([], s)                  -- "No API key provided ..."
    | some _ =>
      match extractJsonArray response with
      | none => ([], s)                -- "Could not find JSON array in response"
      | some jsonStr =>
        match jsonLoads jsonStr with
        | none => ([], s)              -- json.JSONDecodeError
        | some (.arr items) =>
          match decomposeCreateLoop s items 0 now [] with
          | (some ids, s') => (ids, s')
          | (none, s') => ([], s')     -- AttributeError caught by outer except
        | some _ => ([], s)            -- unreachable: "[...]" parses to an array

/-! ## Tools and the Tool Registry (`base_tool.py`, `filesystem_tool.py`,
`tool_registry.py`)

Filesystem paths are modelled lexically: a path string splits into
components, `Path.resolve()` makes it absolute against a `cwd` and folds
away `.` and `..`, and `relative_to` is component-prefix containment.
Wall-clock durations are opaque `Nat` inputs. -/

/-- The slice of `security_config` the filesystem tool reads
(`allowed_paths`, `max_file_size`, `blocked_extensions`, with the
defaults from `FilesystemTool.__init__`). -/
structure SecurityConfig where
  allowedPaths : List String := ["./"]
  maxFileSize : Nat := 10485760
  blockedExtensions : List String := [".exe", ".bat", ".sh"]

/-- Splits a POSIX path string: absolute flag plus components, dropping
empty components and `.` (which resolution ignores). -/
def pathSplit (s : String) : Bool × List String :=
  let cs := s.toList
  (cs.headD ' ' = '/',
   ((splitOnChar '/' cs).map String.mk).filter (fun c => c ≠ "" ∧ c ≠ "."))

/-- Model of `Path(p).resolve()`: absolute components after folding `..`
(at the root, `..` stays at the root, as on POSIX). -/
def resolvePath (cwd : List String) (s : String) : List String :=
  let (abs, comps) := pathSplit s
  comps.foldl (fun base c => if c = ".." then base.dropLast else base ++ [c])
    (if abs then [] else cwd)

/-- Model of `Path.suffix` on the resolved path: the final component's
extension, nonempty only when its last dot is neither first nor last. -/
def pathSuffix (resolved : List String) : String :=
  match resolved.getLast? with
  | none => ""
  | some name =>
    let cs := name.toList
    match cs.reverse.findIdx? (· = '.') with
    | none => ""
    | some r =>
      let i := cs.length - 1 - r
      if 0 < i ∧ i < cs.length - 1 then String.mk (cs.drop i) else ""

/-- The `ToolValidation` dataclass. -/
structure ToolValidation where
  valid : Bool := true
  errors : List String := []
  warnings : List String := []
deriving Repr

/-- Model of `FilesystemTool._validate_path`. -/
def validatePath (cfg : SecurityConfig) (cwd : List String) (filePath : String) :
    ToolValidation :=
  let resolved := resolvePath cwd filePath
  let isAllowed := cfg.allowedPaths.any
    (fun a => (resolvePath cwd a).isPrefixOf resolved)
  let v1 : ToolValidation :=
    if ¬ isAllowed then
      { valid := false,
        errors := ["Path " ++ filePath ++ " is not in allowed paths"] }
    else {}
  let v2 :=
    if cfg.blockedExtensions.contains (pathSuffix resolved) then
      { v1 with valid := false,
                errors := v1.errors ++
                  ["File extension " ++ pathSuffix resolved ++ " is blocked"] }
    else v1
  if strContainsSub filePath ".." then
    { v2 with warnings := v2.warnings ++
        ["Path contains \"..\" - potential security risk"] }
  else v2

/-- Required parameters per filesystem operation
(`FilesystemTool._get_required_parameters`). -/
def fsRequiredParams (operation : String) : List String :=
  if operation = "read_file" ∨ operation = "delete_file" ∨ operation = "get_stats" then
    ["path"]
  else if operation = "write_file" ∨ operation = "create_file" then
    ["path", "content"]
  else if operation = "copy_file" ∨ operation = "move_file" then
    ["source", "destination"]
  else if operation = "list_directory" ∨ operation = "create_directory" then
    ["path"]
  else if operation = "search_files" then
    ["pattern"]
  else []

/-- Model of `FilesystemTool.validate_action` (which first runs
`BaseTool.validate_action`, the required-parameter presence check, then
`_validate_path` on each of path/source/destination present).  A non-string
path value makes Python's `Path(...)` raise inside `_validate_path`; its
`except` turns that into an invalid result. -/
def fsValidateAction (operation : String) (cfg : SecurityConfig)
    (cwd : List String) (parameters : List (String × Json)) : ToolValidation :=
  let required := fsRequiredParams operation
  let missing := required.filter (fun p => (dictGet parameters p).isNone)
  if ¬ missing.isEmpty then
    { valid := false,
      errors := missing.map
        (fun p => "Required parameter " ++ squote p ++ " is missing") }
  else
    let pathsToCheck :=
      (((dictGet parameters "path").map (fun v => [v])).getD []) ++
      (((dictGet parameters "source").map (fun v => [v])).getD []) ++
      (((dictGet parameters "destination").map (fun v => [v])).getD [])
    pathsToCheck.foldl
      (fun v fp =>
        let pv :=
          match fp with
          | .str p => validatePath cfg cwd p
          | _ => { valid := false, errors := ["Invalid path: not a string"] }
        { valid := v.valid && pv.valid,
          errors := if pv.valid then v.errors else v.errors ++ pv.errors,
          warnings := v.warnings ++ pv.warnings })
      ({} : ToolValidation)

/-- The dict returned by `BaseTool.execute` (and by tool bodies): the
tool-level ToolResult. -/
structure InnerToolResult where
  success : Bool
  tool : String
  parameters : List (String × Json)
  result : Option Json := none
  error : Option String := none
  validationErrors : List String := []
  validationWarnings : List String := []
  duration : Option Nat := none
deriving Repr

/-- Outcome of `BaseTool.execute` instrumented with whether
`_execute_internal` (the underlying file operation) ran. -/
structure FsExecOutcome where
  result : InnerToolResult
  bodyInvoked : Bool
deriving Repr

/-- Model of `BaseTool.execute` for a `FilesystemTool`: validation gate, then the
operation body whose OS-level outcome is the abstract `body` argument
(`.ok payload` or `.error message`); exceptions from the body are caught
here and become a failed dict. -/
def fsExecute (operation : String) (cfg : SecurityConfig) (cwd : List String)
    (parameters : List (String × Json)) (body : Except String Json)
    (duration : Nat) : FsExecOutcome :=
  let validation := fsValidateAction operation cfg cwd parameters
  if ¬ validation.valid then
    { result := { success := false, tool := "filesystem_" ++ operation,
                  parameters, error := some "Validation failed",
                  validationErrors := validation.errors,
                  validationWarnings := validation.warnings },
      bodyInvoked := false }
  else
    match body with
    | .ok payload =>
      { result := { success := true, tool := "filesystem_" ++ operation,
                    parameters, result := some payload,
                    duration := some duration },
        bodyInvoked := true }
    | .error msg =>
      { result := { success := false, tool := "filesystem_" ++ operation,
                    parameters, error := some msg, duration := some duration },
        bodyInvoked := true }

/-- A registered tool as the registry sees it: `tool.execute(parameters)`,
which may raise (`.error`) or return a result dict (`.ok`). -/
def ToolRun : Type :=
  List (String × Json) → Except String InnerToolResult

/-- The dict returned by `ToolRegistry.execute_tool`.  On success the
tool's whole returned dict lands under `result`. -/
structure RegistryResult where
  success : Bool
  tool : String
  parameters : List (String × Json)
  result : Option InnerToolResult := none
  error : Option String := none
  duration : Option Nat := none
  conversationId : Option String := none
deriving Repr

/-- Model of `ToolRegistry.execute_tool`.  `_validate_security` is a no-op for every
default tool (none overrides `BaseTool.validate_security`, whose body is
`pass`).  Any exception raised by the tool invocation is caught and turned
into a failed dict: the registry never raises. -/
def executeTool (tools : List (String × ToolRun)) (toolName : String)
    (parameters : List (String × Json)) (conversationId : String)
    (duration : Nat) : RegistryResult :=
  match dictGet tools toolName with
  | none =>
    { success := false, tool := toolName, parameters,
      error := some ("Tool " ++ squote toolName ++ " not found") }
  | some run =>
    match run parameters with
    | .ok result =>
      { success := true, tool := toolName, parameters, result := some result,
        duration := some duration, conversationId := some conversationId }
    | .error msg =>
      { success := false, tool := toolName, parameters, error := some msg,
        duration := some duration, conversationId := some conversationId }

/-- The registry's `execute_tool` wired to a registered
`FilesystemTool(operation, ...)` (as `_register_default_tools` does), with
the body-invocation flag carried alongside.  `BaseTool.execute` catches all
exceptions, so the tool run always returns `.ok` of its result dict. -/
def registryExecuteFs (operation : String) (cfg : SecurityConfig)
    (cwd : List String) (parameters : List (String × Json))
    (body : Except String Json) (conversationId : String) (duration : Nat) :
    RegistryResult × Bool :=
  let outcome := fsExecute operation cfg cwd parameters body duration
  (executeTool [(operation, fun _ => .ok outcome.result)] operation parameters
    conversationId duration,
   outcome.bodyInvoked)

/-! ## Action Parser (`EnhancedAgent._parse_actions_from_response`)

The Python code drives three regexes plus two helper functions.  Each
regex, restricted to how it is actually applied, has deterministic
backtracking; the scanners below implement exactly those semantics and are
annotated with the regex they embed. -/

/-- Python regex `\s` over ASCII: space, tab, newline, carriage return,
vertical tab, form feed (also what `str.strip()` removes). -/
def regexWs (c : Char) : Bool :=
  c = ' ' ∨ c = '\t' ∨ c = '\n' ∨ c = '\r' ∨ c = Char.ofNat 11 ∨ c = Char.ofNat 12

/-- Python regex `\w` (ASCII): letters, digits, underscore. -/
def wordChar (c : Char) : Bool :=
  c.isAlphanum ∨ c = '_'

/-- Case-insensitive character equality (`re.IGNORECASE`). -/
def ciCharEq (a b : Char) : Bool :=
  a.toLower = b.toLower

/-- Case-insensitive prefix test. -/
def ciIsPrefix : List Char → List Char → Bool
  | [], _ => true
  | _ :: _, [] => false
  | p :: ps, c :: cs => ciCharEq p c && ciIsPrefix ps cs

/-- Model of `str.strip()`. -/
def stripChars (cs : List Char) : List Char :=
  ((cs.dropWhile regexWs).reverse.dropWhile regexWs).reverse

/-- Model of `re.findall(r'ACTION:\s*(\w+)', response, re.IGNORECASE)`:
left-to-right non-overlapping scan; at each match the capture is the
maximal `\w+` run after the whitespace. -/
def findActionNamesGo (fuel : Nat) (cs : List Char) : List String :=
  match fuel with
  | 0 => []
  | fuel + 1 =>
    match cs with
    | [] => []
    | _ :: rest =>
      if ciIsPrefix "ACTION:".toList cs then
        let afterWs := (cs.drop 7).dropWhile regexWs
        let word := afterWs.takeWhile wordChar
        if word.isEmpty then findActionNamesGo fuel rest
        else String.mk word :: findActionNamesGo fuel (afterWs.drop word.length)
      else findActionNamesGo fuel rest

def findActionNames (cs : List Char) : List String :=
  findActionNamesGo (cs.length + 1) cs

/-- The shared prefix `ACTION:\s*{name}\s*\nPARAMETERS:\s*\{` of both
block regexes, anchored at the start of `cs`; returns the text after the
opening brace.  Every `\s*` here abuts a non-whitespace literal, so greedy
matching is deterministic; `\s*\n` forces the maximal whitespace run to
end in a newline (the following `P` is not whitespace). -/
def matchBlockOpen (name : List Char) (cs : List Char) : Option (List Char) :=
  if ciIsPrefix "ACTION:".toList cs then
    let cs1 := (cs.drop 7).dropWhile regexWs
    if ciIsPrefix name cs1 then
      let cs2 := cs1.drop name.length
      let wsRun := cs2.takeWhile regexWs
      if wsRun.isEmpty ∨ wsRun.getLast? ≠ some '\n' then none
      else
        let cs3 := cs2.drop wsRun.length
        if ciIsPrefix "PARAMETERS:".toList cs3 then
          match (cs3.drop 11).dropWhile regexWs with
          | '{' :: rest => some rest
          | _ => none
        else none
    else none
  else none

/-- Suffix `.*?\n(?:ACTION:|$)` of the first block regex (`re.DOTALL`, no
`re.MULTILINE`): the lazy run ends at the first newline followed by
`ACTION:` (ci) or by the `$` anchor (end of string, or a sole trailing
newline); the newline stays outside group 1. -/
def closeBlockA (fuel : Nat) (taken rest : List Char) : Option (List Char) :=
  match fuel with
  | 0 => none
  | fuel + 1 =>
    match rest with
    | [] => none
    | '\n' :: tl =>
      if ciIsPrefix "ACTION:".toList tl ∨ tl = [] ∨ tl = ['\n'] then
        some taken.reverse
      else closeBlockA fuel ('\n' :: taken) tl
    | c :: tl => closeBlockA fuel (c :: taken) tl

/-- Suffix `.*?(?=\n\n|\nACTION:|\Z)` of the fallback block regex: the
lazy run ends at the first position where the lookahead holds (a blank
line, a newline + `ACTION:`, or the absolute end of string). -/
def closeBlockB (fuel : Nat) (taken rest : List Char) : Option (List Char) :=
  match fuel with
  | 0 => none
  | fuel + 1 =>
    match rest with
    | [] => some taken.reverse
    | c :: tl =>
      if (c = '\n' ∧ tl.headD ' ' = '\n') ∨
          (c = '\n' ∧ ciIsPrefix "ACTION:".toList tl) then
        some taken.reverse
      else closeBlockB fuel (c :: taken) tl

/-- The `re.search` driver: tries each start position left to right; a
position matches when the shared prefix matches there and the given
suffix closes.  Group 1 is the opening brace plus the lazy run. -/
def searchBlockWith (useA : Bool) (fuel : Nat) (name : List Char)
    (cs : List Char) : Option (List Char) :=
  match fuel with
  | 0 => none
  | fuel + 1 =>
    let attempt :=
      match matchBlockOpen name cs with
      | some rest =>
        (if useA then closeBlockA (rest.length + 1) [] rest
         else closeBlockB (rest.length + 1) [] rest).map (fun b => '{' :: b)
      | none => none
    match attempt with
    | some g => some g
    | none =>
      match cs with
      | [] => none
      | _ :: tl => searchBlockWith useA fuel name tl

/-- The two `re.search` attempts of `_parse_actions_from_response` for one
tool name: the first pattern over the whole response, then the fallback
pattern. -/
def searchParamsGroup (cs : List Char) (name : String) : Option (List Char) :=
  match searchBlockWith true (cs.length + 1) name.toList cs with
  | some g => some g
  | none => searchBlockWith false (cs.length + 1) name.toList cs

/-- Loop of `EnhancedAgent._extract_complete_json`: brace-depth counting
with string / triple-quote / escape state; returns `end_pos` (0 when no
balanced object was found). -/
def ecjLoop (cs : List Char) (fuel i : Nat) (braceCount : Int)
    (inString inTriple escapeNext : Bool) : Nat :=
  match fuel with
  | 0 => 0
  | fuel + 1 =>
    if i < cs.length then
      let c := cs.getD i ' '
      if escapeNext then
        ecjLoop cs fuel (i + 1) braceCount inString inTriple false
      else if c = '\\' ∧ (inString ∨ inTriple) then
        ecjLoop cs fuel (i + 1) braceCount inString inTriple true
      else if i + 2 < cs.length ∧ (cs.drop i).take 3 = ['"', '"', '"'] then
        if ¬ inString then
          ecjLoop cs fuel (i + 3) braceCount inString (¬ inTriple) escapeNext
        else ecjLoop cs fuel (i + 3) braceCount inString inTriple escapeNext
      else if c = '"' ∧ ¬ inTriple then
        ecjLoop cs fuel (i + 1) braceCount (¬ inString) inTriple escapeNext
      else if ¬ inString ∧ ¬ inTriple then
        if c = '{' then
          ecjLoop cs fuel (i + 1) (braceCount + 1) inString inTriple escapeNext
        else if c = '}' then
          if braceCount - 1 = 0 then i + 1
          else ecjLoop cs fuel (i + 1) (braceCount - 1) inString inTriple escapeNext
        else ecjLoop cs fuel (i + 1) braceCount inString inTriple escapeNext
      else ecjLoop cs fuel (i + 1) braceCount inString inTriple escapeNext
    else 0

/-- Model of `EnhancedAgent._extract_complete_json`. -/
def extractCompleteJson (cs : List Char) : List Char :=
  if (cs.dropWhile regexWs).headD ' ' ≠ '{' then cs
  else
    let endPos := ecjLoop cs (cs.length + 1) 0 0 false false false
    if endPos > 0 then cs.take endPos else cs

/-- The escaping in `_fix_json_content.replace_triple_quotes`: the chained
`str.replace` calls act independently on each original character (the
backslashes each step introduces are never re-processed by later steps,
given the order backslash, quote, `\n`, `\r`, `\t`). -/
def escapeForJson (cs : List Char) : List Char :=
  cs.foldr (fun c acc =>
    if c = '\\' then '\\' :: '\\' :: acc
    else if c = '"' then '\\' :: '"' :: acc
    else if c = '\n' then '\\' :: 'n' :: acc
    else if c = '\r' then '\\' :: 'r' :: acc
    else if c = '\t' then '\\' :: 't' :: acc
    else c :: acc) []

/-- Lazy part `"""(.*?)"""` after the colon: first closing triple quote
wins; returns the content and the remainder after the closing quotes. -/
def findTripleClose (fuel : Nat) (cs : List Char) (acc : List Char) :
    Option (List Char × List Char) :=
  match fuel with
  | 0 => none
  | fuel + 1 =>
    if cs.take 3 = ['"', '"', '"'] then some (acc.reverse, cs.drop 3)
    else
      match cs with
      | [] => none
      | c :: tl => findTripleClose fuel tl (c :: acc)

/-- Part `:\s*"""(.*?)"""` of the repair regex, anchored at `cs`. -/
def tripleAfterColon (cs : List Char) : Option (List Char × List Char) :=
  match cs with
  | ':' :: tl =>
    let tl2 := tl.dropWhile regexWs
    if tl2.take 3 = ['"', '"', '"'] then
      findTripleClose (tl2.length + 1) (tl2.drop 3) []
    else none
  | _ => none

/-- Model of `re.sub(r'"([^"]+)":\s*"""(.*?)"""', replace_triple_quotes, json_str,
flags=re.DOTALL)`: left-to-right non-overlapping replacement; the
replacement is `"key": "escaped"` with a single space. -/
def fixJsonGo (fuel : Nat) (cs : List Char) (out : List Char) : List Char :=
  match fuel with
  | 0 => out.reverse ++ cs
  | fuel + 1 =>
    match cs with
    | [] => out.reverse
    | '"' :: tl =>
      let key := tl.takeWhile (· ≠ '"')
      let tl2 := tl.drop key.length
      let attempt :=
        if key.isEmpty then none
        else
          match tl2 with
          | '"' :: tl3 =>
            (tripleAfterColon tl3).map (fun (content, rest) =>
              (('"' :: key ++ '"' :: ':' :: ' ' :: '"' :: escapeForJson content
                  ++ ['"']),
               rest))
          | _ => none
      match attempt with
      | some (replacement, rest) => fixJsonGo fuel rest (replacement.reverse ++ out)
      | none => fixJsonGo fuel tl ('"' :: out)
    | c :: tl => fixJsonGo fuel tl (c :: out)

/-- Model of `EnhancedAgent._fix_json_content`. -/
def fixJsonContent (cs : List Char) : List Char :=
  fixJsonGo (cs.length + 1) cs []

/-- Python `if src in parameters: parameters[dst] = parameters.pop(src)`. -/
def aliasKey (p : List (String × Json)) (src dst : String) :
    List (String × Json) :=
  match dictPop p src with
  | (some v, rest) => dictSet rest dst v
  | (none, _) => p

/-- The per-tool normalization block of `_parse_actions_from_response`.
It sits inside the `except json.JSONDecodeError` handler, so it runs only
for parameters recovered by the repair pass; `continue` (dropping the
action) is `none`. -/
def normalizeRepairedParams (toolName : String) (p0 : List (String × Json)) :
    Option (List (String × Json)) :=
  if toolName = "list_directory" then
    let p1 := aliasKey (aliasKey p0 "directory" "path") "hidden" "include_hidden"
    some (if jsonFalsy (dictGet p1 "path") then dictSet p1 "path" (.str ".") else p1)
  else if toolName = "create_directory" then
    let p1 := aliasKey (aliasKey p0 "directory_path" "path") "directory" "path"
    if jsonFalsy (dictGet p1 "path") then none else some p1
  else if toolName = "read_file" then
    let p1 := aliasKey (aliasKey (aliasKey p0 "file" "path") "file_path" "path")
      "filepath" "path"
    if jsonFalsy (dictGet p1 "path") then none else some p1
  else if toolName = "write_file" then
    let p1 := aliasKey (aliasKey (aliasKey p0 "file" "path") "file_path" "path")
      "filepath" "path"
    if jsonFalsy (dictGet p1 "path") then none else some p1
  else some p0

/-- Parameter handling for one matched block (`enhanced_agent.py` lines
440–496): strict `json.loads` first — on success the parameters are used
as-is — otherwise the triple-quote repair, and only in that branch the
alias normalization / drop.  `none` means the action is skipped.  (The
parsed value is an object: the block text starts with an opening brace.) -/
def processParamsBlock (toolName : String) (jsonStr : List Char) :
    Option (List (String × Json)) :=
  match jsonLoads (String.mk jsonStr) with
  | some (.obj fields) => some fields
  | some _ => none
  | none =>
    match jsonLoads (String.mk (fixJsonContent jsonStr)) with
    | some (.obj fields) => normalizeRepairedParams toolName fields
    | some _ => none
    | none => none

/-- A `(tool, parameters)` pair the parser produces. -/
structure ParsedAction where
  tool : String
  parameters : List (String × Json)
deriving Repr

/-- Parameters the parser extracts for one tool name: `re.search` always
starts from the beginning of the response, so this is the first matching
block regardless of which `ACTION:` occurrence is being processed. -/
def firstBlockParams (response : String) (toolName : String) :
    Option (List (String × Json)) :=
  match searchParamsGroup response.toList toolName with
  | none => none
  | some group =>
    processParamsBlock toolName (extractCompleteJson (stripChars group))

/-- The ACTION/PARAMETERS pass of `_parse_actions_from_response`: for each
found tool name, a fresh `re.search` from the start of the response (so
duplicate names re-find the first matching block). -/
def primaryActions (response : String) : List ParsedAction :=
  (findActionNames response.toList).filterMap (fun toolName =>
    (firstBlockParams response toolName).map
      (fun p => { tool := toolName, parameters := p }))

/-- Capture class of the fallback patterns: `[^\n]` for the command
patterns (`wide`), `[^\s\n]` (which equals `[^\s]`) for the path ones. -/
def captureClass (wide : Bool) (c : Char) : Bool :=
  if wide then c ≠ '\n' else ¬ regexWs c

/-- Backtracking of `[:\s]+(<class>+)`: the greedy separator run gives
back characters until a nonempty capture fits; `run` is the maximal
`[:\s]` run, `after` the text past it. -/
def simpleTryCapture (run after : List Char) (wide : Bool) :
    Option (List Char × List Char) :=
  (List.range run.length).findSome? (fun d =>
    let k := run.length - d
    if k = 0 then none
    else
      let tailk := run.drop k ++ after
      let cap := tailk.takeWhile (captureClass wide)
      if cap.isEmpty then none else some (cap, tailk.drop cap.length))

/-- Model of `re.findall(r'<lit>[:\s]+(<class>+)', response, re.IGNORECASE)`:
non-overlapping left-to-right scan. -/
def simpleFindAll (fuel : Nat) (lit : List Char) (wide : Bool)
    (cs : List Char) : List String :=
  match fuel with
  | 0 => []
  | fuel + 1 =>
    match cs with
    | [] => []
    | _ :: tl =>
      if ciIsPrefix lit cs then
        let afterLit := cs.drop lit.length
        let run := afterLit.takeWhile (fun c => c = ':' ∨ regexWs c)
        match simpleTryCapture run (afterLit.drop run.length) wide with
        | some (cap, rest) => String.mk cap :: simpleFindAll fuel lit wide rest
        | none => simpleFindAll fuel lit wide tl
      else simpleFindAll fuel lit wide tl

/-- The heuristic phrase pass (`simple_patterns`), appended after the
primary pass. -/
def fallbackActions (response : String) : List ParsedAction :=
  let cs := response.toList
  let f := cs.length + 1
  (simpleFindAll f "create file".toList false cs).map (fun m =>
    { tool := "write_file",
      parameters := [("path", .str m), ("content", .str "# Generated file\n")] }) ++
  (simpleFindAll f "read file".toList false cs).map (fun m =>
    { tool := "read_file", parameters := [("path", .str m)] }) ++
  (simpleFindAll f "list directory".toList false cs).map (fun m =>
    { tool := "list_directory", parameters := [("path", .str m)] }) ++
  (simpleFindAll f "run command".toList true cs).map (fun m =>
    { tool := "execute_command", parameters := [("command", .str m)] }) ++
  (simpleFindAll f "execute".toList true cs).map (fun m =>
    { tool := "execute_command", parameters := [("command", .str m)] })

/-- Model of `EnhancedAgent._parse_actions_from_response`: primary protocol pass
plus heuristic pass, concatenated. -/
def parseActionsFromResponse (response : String) : List ParsedAction :=
  primaryActions response ++ fallbackActions response

/-! ## Concrete states and responses used by witnesses and counterexamples -/

/-- A manager holding one freshly created task `task-0`. -/
def oneTaskState : ManagerState :=
  (createTask {} "A" "first task" none [] 0).2

/-- The record of `task-0` inside `oneTaskState`. -/
def task0 : Task :=
  { id := "task-0", name := "A", description := "first task", createdAt := 0 }

/-- A root task `task-0` with one child `task-1`. -/
def parentChildState : ManagerState :=
  (createTask (createTask {} "parent" "" none [] 0).2 "child" ""
    (some "task-0") [] 1).2

/-- The parent record of `parentChildState` after the child was attached. -/
def parentTask : Task :=
  { id := "task-0", name := "parent", description := "", createdAt := 0,
    subtasks := ["task-1"] }

/-- A chain `task-0 ← task-1 ← task-2`: `task-1` is neither a root task
nor childless. -/
def chainState : ManagerState :=
  (createTask parentChildState "grandchild" "" (some "task-1") [] 2).2

/-- Two tasks where `task-0` has FAILED and `task-1` is IN_PROGRESS. -/
def failedPlusRunningState : ManagerState :=
  let s2 := (createTask (createTask {} "A" "" none [] 0).2 "B" "" none [] 0).2
  let s3 := (startTask s2 "task-0" 1).2
  let s4 := (failTask s3 "task-0" "boom" 2).2
  (startTask s4 "task-1" 3).2

/-- The P4 response: a PARAMETERS block holding a Python-style
triple-quoted multi-line string, which is not valid JSON. -/
def tripleQuoteResponse : String :=
  "ACTION: analyze_code\nPARAMETERS: \x7b\"content\": \"\"\"multi\nline\"\"\"\x7d"

/-- A triple-quoted content value containing a backslash, a double quote,
a tab and a newline. -/
def richTripleBlock : List Char :=
  "\x7b\"content\": \"\"\"a\\b\"c\td\ne\"\"\"\x7d".toList

/-- A response whose PARAMETERS block is strictly valid JSON but keyed
with the alias `file` instead of `path`. -/
def strictAliasResponse : String :=
  "ACTION: read_file\nPARAMETERS: \x7b\"file\": \"x.txt\"\x7d"

/-- A strictly valid parameters block using the `file` alias. -/
def strictAliasBlock : List Char :=
  "\x7b\"file\": \"x.txt\"\x7d".toList

/-- A parameters block that needs the triple-quote repair and uses the
`file` alias. -/
def repairedAliasBlock : List Char :=
  "\x7b\"file\": \"y.txt\", \"content\": \"\"\"hi\"\"\"\x7d".toList

/-- Two ACTION blocks naming the same tool with different parameters. -/
def duplicateToolResponse : String :=
  "ACTION: write_file\nPARAMETERS: \x7b\"path\": \"a.txt\", \"content\": \"A\"\x7d\nACTION: write_file\nPARAMETERS: \x7b\"path\": \"b.txt\", \"content\": \"B\"\x7d"

/-! ## Shared lemmas -/

/-- Updating a dict and reading the same key back yields the new value. -/
theorem dictGet_dictSet_self {α : Type} (l : List (String × α)) (k : String)
    (v : α) : dictGet (dictSet l k v) k = some v := by
  induction l with
  | nil => simp [dictSet, dictGet]
  | cons hd tl ih =>
    obtain ⟨k', v'⟩ := hd
    by_cases h : k' = k
    · simp [dictSet, dictGet, h]
    · simp [dictSet, dictGet, h, ih]

/-- A successful `findSome?` splits the list at the first element the
function accepts. -/
theorem findSomeFirstSplit {α β : Type} (f : α → Option β) :
    ∀ (l : List α) (b : β), l.findSome? f = some b →
      ∃ pre x post, l = pre ++ x :: post ∧ f x = some b ∧
        ∀ y ∈ pre, f y = none := by
  intro l
  induction l with
  | nil => intro b h; simp [List.findSome?] at h
  | cons hd tl ih =>
    intro b h
    rw [List.findSome?_cons] at h
    cases hf : f hd with
    | some v =>
      simp only [hf] at h
      exact ⟨[], hd, tl, rfl, by rw [hf, h], by intro y hy; simp at hy⟩
    | none =>
      simp only [hf] at h
      obtain ⟨pre, x, post, he, hfx, hpre⟩ := ih b h
      refine ⟨hd :: pre, x, post, by rw [he]; rfl, hfx, ?_⟩
      intro y hy
      rcases List.mem_cons.mp hy with rfl | hmem
      · exact hf
      · exact hpre y hmem

/-- A path outside every allowed entry makes `_validate_path` report
invalid (regardless of the blocked-extension and `..` checks). -/
theorem validatePath_outside_invalid (cfg : SecurityConfig)
    (cwd : List String) (p : String)
    (h : cfg.allowedPaths.all
      (fun a => !((resolvePath cwd a).isPrefixOf (resolvePath cwd p))) = true) :
    (validatePath cfg cwd p).valid = false := by
  have hAny : cfg.allowedPaths.any
      (fun a => (resolvePath cwd a).isPrefixOf (resolvePath cwd p)) = false := by
    rw [Bool.eq_false_iff]
    intro hany
    obtain ⟨x, hx, hfx⟩ := List.any_eq_true.mp hany
    have hall := List.all_eq_true.mp h x hx
    rw [hfx] at hall
    simp at hall
  unfold validatePath
  simp only [hAny, Bool.false_eq_true, not_false_eq_true, if_true]
  split <;> split <;> rfl

/-- With both required parameters present and a path outside every
allowed entry, `validate_action` for `write_file` is invalid. -/
theorem fsValidateAction_write_outside (cfg : SecurityConfig)
    (cwd : List String) (p content : String)
    (h : cfg.allowedPaths.all
      (fun a => !((resolvePath cwd a).isPrefixOf (resolvePath cwd p))) = true) :
    (fsValidateAction "write_file" cfg cwd
      [("path", .str p), ("content", .str content)]).valid = false := by
  have hv := validatePath_outside_invalid cfg cwd p h
  unfold fsValidateAction
  simp [fsRequiredParams, dictGet, List.filter, hv]

/-! ## Claims -/

/-- **C1** (corrected).  For a `write_file` call whose `path` resolves
outside every `allowed_paths` entry, validation fails closed at the tool
level: the underlying file operation is never invoked and the tool-level
ToolResult has `success=false` with error "Validation failed" — but
`ToolRegistry.execute_tool` wraps this non-exception return as a result
with top-level `success=true` whose nested `result` carries the failure,
rather than returning `success=false` itself as the claim states. -/
theorem C1_theorem (cfg : SecurityConfig) (cwd : List String)
    (p content : String) (body : Except String Json) (conv : String)
    (dur : Nat)
    (h : cfg.allowedPaths.all
      (fun a => !((resolvePath cwd a).isPrefixOf (resolvePath cwd p))) = true) :
    ((registryExecuteFs "write_file" cfg cwd
        [("path", .str p), ("content", .str content)] body conv dur).2
      = false) ∧
    ((registryExecuteFs "write_file" cfg cwd
        [("path", .str p), ("content", .str content)] body conv dur).1.success
      = true) ∧
    (((registryExecuteFs "write_file" cfg cwd
        [("path", .str p), ("content", .str content)] body conv dur).1.result.map
        InnerToolResult.success) = some false) ∧
    (((registryExecuteFs "write_file" cfg cwd
        [("path", .str p), ("content", .str content)] body conv dur).1.result.map
        InnerToolResult.error) = some (some "Validation failed")) := by
  have hval := fsValidateAction_write_outside cfg cwd p content h
  simp [registryExecuteFs, fsExecute, executeTool, hval, dictGet]

/-- Witness for C1 at the default `SecurityConfig` (allowed paths
`["./"]`) and path `/etc/passwd`. -/
theorem C1_witness :
    ((({} : SecurityConfig).allowedPaths.all
      (fun a => !((resolvePath ["home", "user"] a).isPrefixOf
        (resolvePath ["home", "user"] "/etc/passwd")))) = true) ∧
    (((registryExecuteFs "write_file" {} ["home", "user"]
        [("path", .str "/etc/passwd"), ("content", .str "x")] (.ok .null)
        "conv-1" 5).2 = false) ∧
    ((registryExecuteFs "write_file" {} ["home", "user"]
        [("path", .str "/etc/passwd"), ("content", .str "x")] (.ok .null)
        "conv-1" 5).1.success = true) ∧
    (((registryExecuteFs "write_file" {} ["home", "user"]
        [("path", .str "/etc/passwd"), ("content", .str "x")] (.ok .null)
        "conv-1" 5).1.result.map InnerToolResult.success) = some false) ∧
    (((registryExecuteFs "write_file" {} ["home", "user"]
        [("path", .str "/etc/passwd"), ("content", .str "x")] (.ok .null)
        "conv-1" 5).1.result.map InnerToolResult.error)
      = some (some "Validation failed"))) :=
  ⟨rfl, C1_theorem {} ["home", "user"] "/etc/passwd" "x" (.ok .null)
    "conv-1" 5 rfl⟩

/-- Counterexample to C1 as stated: with the default config, a
`write_file` whose path `/etc/passwd` resolves outside every allowed
path still makes the registry's `execute_tool` return top-level
`success=true` (the failure only sits nested inside `result`). -/
theorem C1_counterexample :
    ((({} : SecurityConfig).allowedPaths.all
      (fun a => !((resolvePath ["home", "user"] a).isPrefixOf
        (resolvePath ["home", "user"] "/etc/passwd")))) = true) ∧
    ((registryExecuteFs "write_file" {} ["home", "user"]
        [("path", .str "/etc/passwd"), ("content", .str "x")] (.ok .null)
        "conv-1" 5).1.success = true) :=
  ⟨rfl, rfl⟩

/-- **C2** (confirmed).  `ToolRegistry.execute_tool` never raises: it is a
total function into result dicts; an unregistered tool name yields a
failed result naming the tool, and an exception from the tool invocation
yields `{success:false, error: message, duration}`. -/
theorem C2_theorem (tools : List (String × ToolRun)) (toolName : String)
    (parameters : List (String × Json)) (conv : String) (dur : Nat) :
    (dictGet tools toolName = none →
      executeTool tools toolName parameters conv dur =
        { success := false, tool := toolName, parameters,
          error := some ("Tool " ++ squote toolName ++ " not found") }) ∧
    (∀ run msg, dictGet tools toolName = some run →
      run parameters = .error msg →
      executeTool tools toolName parameters conv dur =
        { success := false, tool := toolName, parameters,
          error := some msg, duration := some dur,
          conversationId := some conv }) := by
  constructor
  · intro h
    simp [executeTool, h]
  · intro run msg h hrun
    simp [executeTool, h, hrun]

/-- Witness for C2: an unregistered tool, and a tool whose invocation
raises. -/
theorem C2_witness :
    (executeTool [] "bogus_tool" [] "conv-1" 3 =
      { success := false, tool := "bogus_tool", parameters := [],
        error := some ("Tool " ++ squote "bogus_tool" ++ " not found") }) ∧
    (executeTool [("t", fun _ => .error "boom")] "t" [] "conv-1" 3 =
      { success := false, tool := "t", parameters := [],
        error := some "boom", duration := some 3,
        conversationId := some "conv-1" }) :=
  ⟨(C2_theorem [] "bogus_tool" [] "conv-1" 3).1 rfl,
   (C2_theorem [("t", fun _ => .error "boom")] "t" [] "conv-1" 3).2
     (fun _ => .error "boom") "boom" rfl rfl⟩

/-- **C3** (confirmed).  `start_task` succeeds exactly when the task
exists and is NOT_STARTED; a second `start_task` on the same id returns
false and leaves the whole manager state (hence the task's state and
`started_at`) unchanged. -/
theorem C3_theorem (s : ManagerState) (id : String) (n1 n2 : Nat) :
    ((startTask s id n1).1 = true ↔
      ∃ t, dictGet s.tasks id = some t ∧ t.state = .notStarted) ∧
    ((startTask s id n1).1 = true →
      startTask (startTask s id n1).2 id n2 =
        (false, (startTask s id n1).2)) := by
  constructor
  · cases hget : dictGet s.tasks id with
    | none => simp [startTask, hget]
    | some t =>
      by_cases hst : t.state = .notStarted
      · simp [startTask, hget, hst]
      · simp [startTask, hget, hst]
  · intro h
    cases hget : dictGet s.tasks id with
    | none => simp [startTask, hget] at h
    | some t =>
      by_cases hst : t.state = .notStarted
      · have hs2 : (startTask s id n1).2 =
            { s with tasks := dictSet s.tasks id
                       { t with state := .inProgress, startedAt := some n1 },
                     currentTaskId := some id } := by
          simp [startTask, hget, hst]
        rw [hs2]
        have hget2 : dictGet (dictSet s.tasks id
            { t with state := .inProgress, startedAt := some n1 }) id =
            some { t with state := .inProgress, startedAt := some n1 } :=
          dictGet_dictSet_self _ _ _
        simp [startTask, hget2]
      · simp [startTask, hget, hst] at h

/-- Witness for C3: starting `task-0` twice. -/
theorem C3_witness :
    ((startTask oneTaskState "task-0" 1).1 = true) ∧
    (startTask (startTask oneTaskState "task-0" 1).2 "task-0" 2 =
      (false, (startTask oneTaskState "task-0" 1).2)) :=
  ⟨rfl, (C3_theorem oneTaskState "task-0" 1 2).2 rfl⟩

/-- **C4** (corrected).  `complete_task` and `fail_task` only check that
the task exists — they do not check its state.  Called on a NOT_STARTED
task they return true and move it straight to COMPLETED / FAILED, setting
the completion time, result / error and (for completion) progress 1. -/
theorem C4_theorem (s : ManagerState) (id : String) (result : Option Json)
    (err : String) (now : Nat) (t : Task)
    (h : dictGet s.tasks id = some t) :
    ((completeTask s id result now).1 = true) ∧
    (getTask (completeTask s id result now).2.1 id =
      some { t with state := .completed, completedAt := some now,
                    result := result, progress := 1 }) ∧
    ((failTask s id err now).1 = true) ∧
    (getTask (failTask s id err now).2 id =
      some { t with state := .failed, completedAt := some now,
                    error := some err }) := by
  refine ⟨?_, ?_, ?_, ?_⟩ <;>
    simp [completeTask, failTask, getTask, h, dictGet_dictSet_self]

/-- Witness for C4 on the NOT_STARTED task `task-0`. -/
theorem C4_witness :
    ((completeTask oneTaskState "task-0" none 1).1 = true) ∧
    (getTask (completeTask oneTaskState "task-0" none 1).2.1 "task-0" =
      some { task0 with state := .completed, completedAt := some 1,
                        result := none, progress := 1 }) ∧
    ((failTask oneTaskState "task-0" "boom" 1).1 = true) ∧
    (getTask (failTask oneTaskState "task-0" "boom" 1).2 "task-0" =
      some { task0 with state := .failed, completedAt := some 1,
                        error := some "boom" }) :=
  C4_theorem oneTaskState "task-0" none "boom" 1 task0 rfl

/-- Counterexample to C4 as stated: `task-0` is NOT_STARTED, yet
`complete_task` returns true and sets its state to COMPLETED (and
`fail_task` likewise sets FAILED) instead of rejecting the call. -/
theorem C4_counterexample :
    ((getTask oneTaskState "task-0").map Task.state = some .notStarted) ∧
    ((completeTask oneTaskState "task-0" none 1).1 = true) ∧
    ((getTask (completeTask oneTaskState "task-0" none 1).2.1 "task-0").map
      Task.state = some .completed) ∧
    ((failTask oneTaskState "task-0" "err" 1).1 = true) ∧
    ((getTask (failTask oneTaskState "task-0" "err" 1).2 "task-0").map
      Task.state = some .failed) :=
  ⟨rfl, rfl, rfl, rfl, rfl⟩

/-- **C5** (corrected).  `complete_task` sets COMPLETED, progress 1,
result and completion time, and fires the all-complete callback exactly
when afterwards every task is COMPLETED or CANCELLED — a FAILED task
counts as incomplete and suppresses the event, contrary to the claim's
"terminal (COMPLETED, FAILED, or CANCELLED)". -/
theorem C5_theorem (s : ManagerState) (id : String) (result : Option Json)
    (now : Nat) (t : Task) (h : dictGet s.tasks id = some t) :
    (((completeTask s id result now).2.2 = true) ↔
      ∀ p ∈ (completeTask s id result now).2.1.tasks,
        p.2.state = .completed ∨ p.2.state = .cancelled) ∧
    (getTask (completeTask s id result now).2.1 id =
      some { t with state := .completed, completedAt := some now,
                    result := result, progress := 1 }) := by
  constructor
  · simp [completeTask, h, allTasksComplete, List.all_eq_true]
  · simp [completeTask, getTask, h, dictGet_dictSet_self]

/-- Witness for C5: completing the only task makes every task COMPLETED
or CANCELLED, and the callback condition holds. -/
theorem C5_witness :
    (((completeTask oneTaskState "task-0" none 1).2.2 = true) ↔
      ∀ p ∈ (completeTask oneTaskState "task-0" none 1).2.1.tasks,
        p.2.state = .completed ∨ p.2.state = .cancelled) ∧
    (getTask (completeTask oneTaskState "task-0" none 1).2.1 "task-0" =
      some { task0 with state := .completed, completedAt := some 1,
                        result := none, progress := 1 }) :=
  C5_theorem oneTaskState "task-0" none 1 task0 rfl

/-- Counterexample to C5 as stated: completing `task-1` leaves every task
terminal (`task-0` FAILED, `task-1` COMPLETED), yet the all-complete
event does not fire, because `_all_tasks_complete` treats FAILED as
incomplete. -/
theorem C5_counterexample :
    ((completeTask failedPlusRunningState "task-1" none 4).2.2 = false) ∧
    ((completeTask failedPlusRunningState "task-1" none 4).2.1.tasks.all
      (fun p => p.2.state = .completed ∨ p.2.state = .failed ∨
        p.2.state = .cancelled) = true) :=
  ⟨rfl, rfl⟩

/-- **C6** (corrected).  `create_task` appends every task to the
execution-order list: the "root or no subtasks" condition is evaluated on
the freshly created task, whose subtask list is always empty, so it always
holds.  `get_next_task` is FIFO: it returns the task of the first
execution-order entry still NOT_STARTED — which can be a parent "group"
task that acquired children later. -/
theorem C6_theorem (s : ManagerState) (name description : String)
    (parentId : Option String) (metadata : List (String × Json)) (now : Nat) :
    ((createTask s name description parentId metadata now).2.executionOrder =
      s.executionOrder ++ [(createTask s name description parentId metadata now).1]) ∧
    (∀ t, getNextTask s = some t →
      t.state = .notStarted ∧
      ∃ pre id post, s.executionOrder = pre ++ id :: post ∧
        dictGet s.tasks id = some t ∧
        ∀ id' ∈ pre, ∀ t', dictGet s.tasks id' = some t' →
          t'.state ≠ .notStarted) := by
  constructor
  · simp [createTask, Task.hasSubtasks]
  · intro t h
    unfold getNextTask at h
    obtain ⟨pre, id, post, he, hfx, hpre⟩ := findSomeFirstSplit _ _ _ h
    have hstate : t.state = .notStarted ∧ dictGet s.tasks id = some t := by
      cases hget : dictGet s.tasks id with
      | none => simp [hget] at hfx
      | some t0 =>
        simp only [hget] at hfx
        by_cases hst : t0.state = .notStarted
        · rw [if_pos hst] at hfx
          cases hfx
          exact ⟨hst, rfl⟩
        · rw [if_neg hst] at hfx
          simp at hfx
    refine ⟨hstate.1, pre, id, post, he, hstate.2, ?_⟩
    intro id' hmem t' hget'
    have hnone := hpre id' hmem
    simp only [hget'] at hnone
    intro hst
    rw [if_pos hst] at hnone
    simp at hnone

/-- Witness for C6: creating a grandchild under `task-1` still appends it
to the execution order, and `get_next_task` on the parent/child state
returns the parent record (first NOT_STARTED in FIFO order). -/
theorem C6_witness :
    ((createTask parentChildState "grandchild" "" (some "task-1") [] 2).2.executionOrder =
      parentChildState.executionOrder ++
        [(createTask parentChildState "grandchild" "" (some "task-1") [] 2).1]) ∧
    (parentTask.state = .notStarted ∧
      ∃ pre id post, parentChildState.executionOrder = pre ++ id :: post ∧
        dictGet parentChildState.tasks id = some parentTask ∧
        ∀ id' ∈ pre, ∀ t', dictGet parentChildState.tasks id' = some t' →
          t'.state ≠ .notStarted) :=
  ⟨(C6_theorem parentChildState "grandchild" "" (some "task-1") [] 2).1,
   (C6_theorem parentChildState "grandchild" "" (some "task-1") [] 2).2
     parentTask rfl⟩

/-- Counterexample to C6 as stated: in the chain `task-0 ← task-1 ←
task-2`, the middle task `task-1` is neither a root task nor childless
yet sits on the execution-order list, and `get_next_task` returns a task
with subtasks — a parent "group" task handed out for direct execution. -/
theorem C6_counterexample :
    (chainState.executionOrder = ["task-0", "task-1", "task-2"]) ∧
    ((getTask chainState "task-1").map Task.parentId = some (some "task-0")) ∧
    ((getTask chainState "task-1").map Task.hasSubtasks = some true) ∧
    ((getNextTask chainState).map Task.hasSubtasks = some true) :=
  ⟨rfl, rfl, rfl, rfl⟩

/-- **C7** (corrected).  Alias normalization and the required-parameter
drop live inside the `except json.JSONDecodeError` handler: a PARAMETERS
block that parses strictly is used verbatim — no aliasing, no drop — and
only parameters recovered by the triple-quote repair are normalized
(e.g. `file` → `path` for read_file, with the action dropped when `path`
is still missing or falsy afterwards). -/
theorem C7_theorem (toolName : String) (jsonStr : List Char)
    (fields : List (String × Json)) (v : String) :
    (jsonLoads (String.mk jsonStr) = some (.obj fields) →
      processParamsBlock toolName jsonStr = some fields) ∧
    (jsonLoads (String.mk jsonStr) = none →
      jsonLoads (String.mk (fixJsonContent jsonStr)) = some (.obj fields) →
      processParamsBlock toolName jsonStr =
        normalizeRepairedParams toolName fields) ∧
    (normalizeRepairedParams "read_file" [("file", .str v)] =
      if v.isEmpty then none else some [("path", .str v)]) := by
  refine ⟨?_, ?_, ?_⟩
  · intro h
    simp [processParamsBlock, h]
  · intro h1 h2
    simp [processParamsBlock, h1, h2]
  · simp [normalizeRepairedParams, aliasKey, dictPop, dictSet, dictGet,
      jsonFalsy]

/-- Witness for C7: the strict block keeps its `file` key; the repaired
block goes through normalization; the repair-branch aliasing maps
`file` to `path`. -/
theorem C7_witness :
    (processParamsBlock "read_file" strictAliasBlock =
      some [("file", .str "x.txt")]) ∧
    (processParamsBlock "write_file" repairedAliasBlock =
      normalizeRepairedParams "write_file"
        [("file", .str "y.txt"), ("content", .str "hi")]) ∧
    (normalizeRepairedParams "read_file" [("file", .str "y.txt")] =
      if ("y.txt" : String).isEmpty then none
      else some [("path", .str "y.txt")]) :=
  ⟨( C7_theorem "read_file" strictAliasBlock [("file", .str "x.txt")] "").1 rfl,
   ( C7_theorem "write_file" repairedAliasBlock
     [("file", .str "y.txt"), ("content", .str "hi")] "").2.1 rfl rfl,
   ( C7_theorem "read_file" [] [] "y.txt").2.2⟩

/-- Counterexample to C7 as stated: a strictly valid PARAMETERS block
keyed `file` is neither aliased to `path` nor dropped — the parser emits
the action with the `file` key intact and no `path`. -/
theorem C7_counterexample :
    parseActionsFromResponse strictAliasResponse =
      [{ tool := "read_file", parameters := [("file", Json.str "x.txt")] }] :=
  rfl

/-- **C8** (confirmed).  On a PARAMETERS block holding a triple-quoted
multi-line string, the repair pass converts it into a properly escaped
JSON string and the parser yields exactly one action whose
`parameters.content` is the original text; embedded backslashes, quotes,
tabs and newlines survive the repair round-trip. -/
theorem C8_theorem :
    (parseActionsFromResponse tripleQuoteResponse =
      [{ tool := "analyze_code",
         parameters := [("content", Json.str "multi\nline")] }]) ∧
    (jsonLoads (String.mk (fixJsonContent richTripleBlock)) =
      some (.obj [("content", .str "a\\b\"c\td\ne")])) :=
  ⟨rfl, rfl⟩

/-- **C9** (confirmed).  When the request matches no project-type
template and the response contains no parseable JSON array (no `[...]`
match, or one whose text `json.loads` rejects), `decompose_task` returns
the empty task list with the manager unchanged; the embedding is a total
function, so no exception escapes. -/
theorem C9_theorem (s : ManagerState) (request : String)
    (apiKey : Option String) (response : String)
    (fileHelper : String → List FileTask) (now : Nat)
    (hdetect : detectProjectType request = none)
    (hjson : (extractJsonArray response).bind (fun js => jsonLoads js) = none) :
    decomposeTask s request apiKey response fileHelper now = ([], s) := by
  unfold decomposeTask
  rw [hdetect]
  cases apiKey with
  | none => rfl
  | some k =>
    cases hext : extractJsonArray response with
    | none => rfl
    | some js =>
      have hj : jsonLoads js = none := by
        rw [hext] at hjson
        simpa using hjson
      simp [hj]

/-- Witness for C9: a template-free request and a response whose only
bracketed text is not JSON. -/
theorem C9_witness :
    decomposeTask {} "sort my photos" (some "key") "blah [ not json ] blah"
      (fun _ => []) 0 = ([], {}) :=
  C9_theorem {} "sort my photos" (some "key") "blah [ not json ] blah"
    (fun _ => []) 0 rfl rfl

/-- **C10** (confirmed).  Every action of the ACTION/PARAMETERS pass
carries the parameters of the first matching block for its tool name
(the `re.search` runs from the start of the response each time), so two
actions naming the same tool always carry identical parameters and a
later block with different parameters is never extracted. -/
theorem C10_theorem (response : String) (a : ParsedAction)
    (ha : a ∈ primaryActions response) :
    (firstBlockParams response a.tool = some a.parameters) ∧
    (∀ b ∈ primaryActions response, b.tool = a.tool →
      b.parameters = a.parameters) := by
  have extract : ∀ c : ParsedAction, c ∈ primaryActions response →
      firstBlockParams response c.tool = some c.parameters := by
    intro c hc
    unfold primaryActions at hc
    obtain ⟨n, _, hn⟩ := List.mem_filterMap.mp hc
    obtain ⟨p, hp, hmk⟩ := Option.map_eq_some'.mp hn
    cases hmk
    simpa using hp
  refine ⟨extract a ha, ?_⟩
  intro b hb htool
  have h1 := extract a ha
  have h2 := extract b hb
  rw [htool, h1] at h2
  exact (Option.some.injEq _ _).mp h2.symm

set_option maxRecDepth 100000 in
/-- Witness for C10: the duplicated `write_file` blocks both resolve to
the first block's parameters (`a.txt`), never the second block's
(`b.txt`). -/
theorem C10_witness :
    (parseActionsFromResponse duplicateToolResponse =
      [{ tool := "write_file",
         parameters := [("path", Json.str "a.txt"), ("content", Json.str "A")] },
       { tool := "write_file",
         parameters := [("path", Json.str "a.txt"), ("content", Json.str "A")] }]) ∧
    (firstBlockParams duplicateToolResponse "write_file" =
      some [("path", Json.str "a.txt"), ("content", Json.str "A")]) ∧
    (∀ b ∈ primaryActions duplicateToolResponse, b.tool = "write_file" →
      b.parameters = [("path", Json.str "a.txt"), ("content", Json.str "A")]) := by
  have h := C10_theorem duplicateToolResponse
    { tool := "write_file",
      parameters := [("path", Json.str "a.txt"), ("content", Json.str "A")] }
    (by
      rw [show primaryActions duplicateToolResponse =
        [{ tool := "write_file",
           parameters := [("path", Json.str "a.txt"), ("content", Json.str "A")] },
         { tool := "write_file",
           parameters := [("path", Json.str "a.txt"), ("content", Json.str "A")] }]
        from rfl]
      exact List.mem_cons_self _ _)
  exact ⟨rfl, h.1, h.2⟩

end CodeSolAI
